import Mathlib

/-!
# Verification of the Neural Content Director core

Shallow embedding of the engagement-scoring and adaptation-decision engine of
the repository (source files `src/models/engagement_tracker.py`,
`src/models/neural_director.py`, `src/app.py`), together with theorems that
settle the specification claims about it.

Modelling conventions:
* Python floats are modelled as exact rationals (`ℚ`); the noise sample drawn
  from `np.random.normal` and every wall-clock timestamp (`datetime.now()`)
  are passed in as explicit parameters, so every function is deterministic.
* Python dicts are modelled as insertion-ordered association lists
  (`List (String × α)`), which is faithful to CPython's key-insertion-order
  semantics used by the source.
* Functions that can return an error dict or raise are modelled with
  `Except String`.
* The two sklearn models inside `NeuralDirector` are external trained
  predictors; their two outputs consumed by `optimize_content`
  (`content_optimizer.predict` and `engagement_model.predict`) are passed in
  as explicit parameters `needs_opt` and `predicted_engagement`.
-/

/-- Python `d[k]` / `k in d` lookup on an insertion-ordered association list:
returns the value of the first pair whose key is `k`. -/
def dict_get {α : Type} (m : List (String × α)) (k : String) : Option α :=
  match m with
  | [] => none
  | p :: rest => if p.1 = k then some p.2 else dict_get rest k

/-- Python dict upsert `d[k] = f(d[k]) if k in d else init`: if the key is
present the first (and in well-formed states only) binding is updated in
place, otherwise a new binding is appended at the end, exactly as CPython
dicts behave. -/
def dict_upsert {α : Type} (m : List (String × α)) (k : String) (f : α → α)
    (init : α) : List (String × α) :=
  match dict_get m k with
  | none => m ++ [(k, init)]
  | some _ => m.map (fun p => if p.1 = k then (p.1, f p.2) else p)

/-! ## `src/models/engagement_tracker.py` -/

/-- One element of `tracking_history` / `session_data[sid]`
(engagement_tracker.py lines 43-49).  Timestamps are rationals (seconds). -/
structure TrackingEntry where
  timestamp : ℚ
  session_id : String
  action : String
  engagement_score : ℚ
  video_time : ℚ
deriving DecidableEq

/-- The `data` dict handed to `calculate_engagement`; `.get` defaults are
applied inside the function as in the source (lines 16-18). -/
structure EngagementData where
  action : Option String
  video_time : Option ℚ
  session_id : Option String
deriving DecidableEq

/-- State of an `EngagementTracker` object (lines 6-8). -/
structure TrackerState where
  tracking_history : List TrackingEntry
  session_data : List (String × List TrackingEntry)
deriving DecidableEq

/-- `EngagementTracker.__init__` (lines 6-8). -/
def initial_tracker : TrackerState := ⟨[], []⟩

/-- The per-action adjustment of the default baseline `base_score = 0.7`
(engagement_tracker.py lines 14-36). -/
def action_adjusted_score (action : String) : ℚ :=
  let base_score : ℚ := 0.7
  if action = "pause" then max 0.3 (base_score - 0.2)
  else if action = "rewind" then min 1.0 (base_score + 0.1)
  else if action = "skip" then max 0.1 (base_score - 0.4)
  else if action = "fast_forward" then max 0.2 (base_score - 0.3)
  else if action = "play" then min 1.0 (base_score + 0.1)
  else if action = "volume_up" then min 1.0 (base_score + 0.05)
  else if action = "fullscreen" then min 1.0 (base_score + 0.15)
  else base_score

/-- `EngagementTracker.calculate_engagement` (lines 10-58).  `noise` is the
`np.random.normal(0, 0.05)` sample, `now` the `datetime.now()` timestamp.
Returns the score together with the updated tracker state (history append on
line 51, session-dict update on lines 54-56). -/
def calculate_engagement (st : TrackerState) (data : EngagementData)
    (noise : ℚ) (now : ℚ) : ℚ × TrackerState :=
  let action := data.action.getD "viewing"
  let video_time := data.video_time.getD 0
  let session_id := data.session_id.getD "unknown"
  let score := max 0 (min 1 (action_adjusted_score action + noise))
  let entry : TrackingEntry := ⟨now, session_id, action, score, video_time⟩
  (score,
   ⟨st.tracking_history ++ [entry],
    dict_upsert st.session_data session_id (fun l => l ++ [entry]) [entry]⟩)

/-- `np.mean` on a list of rationals (division by zero yields 0 in Lean; the
only call site on a possibly-empty list is handled separately, see
`classify_trend`). -/
def np_mean (l : List ℚ) : ℚ := l.sum / l.length

/-- The trend computation of `EngagementTracker.get_engagement_trend` on a
score sequence (engagement_tracker.py lines 67-81).  When exactly 3 scores
exist, `session_scores[:-3]` is empty and `np.mean([])` is NaN in the source;
both NaN comparisons on lines 76 and 78 are false, so the source returns
`"stable"` — the empty-slice guard below models that. -/
def classify_trend (scores : List ℚ) : String :=
  if scores.length < 3 then "stable"
  else
    let recent := scores.drop (scores.length - 3)
    let earlier :=
      if 6 ≤ scores.length then (scores.drop (scores.length - 6)).take 3
      else scores.take (scores.length - 3)
    if earlier.isEmpty then "stable"
    else
      let trend := np_mean recent - np_mean earlier
      if trend > 0.1 then "increasing"
      else if trend < -0.1 then "decreasing"
      else "stable"

/-- `EngagementTracker.get_engagement_trend` (lines 60-81): unknown sessions
return `"stable"` (line 63), otherwise the trend of the session's score
sequence is classified. -/
def get_engagement_trend (st : TrackerState) (session_id : String) : String :=
  match dict_get st.session_data session_id with
  | none => "stable"
  | some entries => classify_trend (entries.map (fun e => e.engagement_score))

/-- Python's banker's rounding `round(x)` to an integer: round half to even. -/
def round_half_even (x : ℚ) : ℤ :=
  if Int.fract x = 1 / 2 then
    let n := Int.floor x
    if n % 2 = 0 then n else n + 1
  else round x

/-- Python `round(x, 2)`. -/
def round2 (x : ℚ) : ℚ := (round_half_even (x * 100) : ℚ) / 100

/-- `np.max` on the (always nonempty at its call site) score list. -/
def np_max (l : List ℚ) : ℚ :=
  match l with
  | [] => 0
  | x :: xs => xs.foldl max x

/-- `np.min` on the (always nonempty at its call site) score list. -/
def np_min (l : List ℚ) : ℚ :=
  match l with
  | [] => 0
  | x :: xs => xs.foldl min x

/-- `EngagementTracker._calculate_session_duration` (lines 110-119): duration
between first and last entry in minutes, rounded to 2 decimals; 0 when fewer
than 2 entries. -/
def calculate_session_duration (entries : List TrackingEntry) : ℚ :=
  match entries with
  | [] => 0
  | e0 :: rest =>
    match rest.getLast? with
    | none => 0
    | some elast => round2 ((elast.timestamp - e0.timestamp) / 60)

/-- First-seen-order deduplication of a list of labels; this is the key order
of a CPython dict (or of iterating a list while recording first occurrences). -/
def first_seen (l : List String) : List String :=
  l.foldl (fun ks a => if a ∈ ks then ks else ks ++ [a]) []

/-- The dict-comprehension `{action: actions.count(action) for action in
set(actions)}` (line 103).  CPython iterates `set(actions)` in an
implementation-defined order; we fix first-seen order here (no claim depends
on this order). -/
def set_action_counts (actions : List String) : List (String × Nat) :=
  (first_seen actions).map (fun a => (a, actions.count a))

/-- The analytics record returned by `get_session_analytics` (lines 96-106).
`np.std(scores)` is the square root of `engagement_variance`; the square root
is irrational over ℚ so the variance is stored un-rooted (no claim depends on
its value). -/
structure SessionAnalytics where
  session_id : String
  total_interactions : Nat
  avg_engagement : ℚ
  max_engagement : ℚ
  min_engagement : ℚ
  engagement_trend : String
  action_counts : List (String × Nat)
  session_duration : ℚ
  engagement_variance : ℚ
deriving DecidableEq

/-- `EngagementTracker.get_session_analytics` (lines 83-108): unknown session
ids yield the error dict `{'error': 'Session not found'}` (line 86), a present
but empty ledger yields `{'error': 'No data for session'}` (line 91), and
otherwise the aggregate record is built. -/
def get_session_analytics (st : TrackerState) (session_id : String) :
    Except String SessionAnalytics :=
  match dict_get st.session_data session_id with
  | none => .error "Session not found"
  | some entries =>
    if entries.isEmpty then .error "No data for session"
    else
      let scores := entries.map (fun e => e.engagement_score)
      let actions := entries.map (fun e => e.action)
      .ok ⟨session_id, entries.length, np_mean scores, np_max scores,
           np_min scores, get_engagement_trend st session_id,
           set_action_counts actions, calculate_session_duration entries,
           np_mean (scores.map (fun s => (s - np_mean scores) ^ 2))⟩

/-- One step of building the Python counter dict
`action_counts[action] = action_counts.get(action, 0) + 1` (line 148), also
used for the trend histogram `trends[trend] = trends.get(trend, 0) + 1`
(line 160). -/
def update_count (m : List (String × Nat)) (k : String) : List (String × Nat) :=
  dict_upsert m k (fun n => n + 1) 1

/-- The counter dict built by the loop on lines 146-148: frequency of each
action, keys in first-seen order. -/
def action_counts (actions : List String) : List (String × Nat) :=
  actions.foldl update_count []

/-- Stable insertion into a list sorted descending by count: the new element
goes after every element whose count is at least as large.  Used to embed
CPython's stable `sorted(..., key=lambda x: x[1], reverse=True)` (line 151);
`sort_desc` below is provably the unique stable descending sort. -/
def insert_by_count_desc (x : String × Nat) :
    List (String × Nat) → List (String × Nat)
  | [] => [x]
  | y :: ys => if x.2 ≥ y.2 then x :: y :: ys else y :: insert_by_count_desc x ys

/-- Stable sort, descending by count — the embedding of
`sorted(action_counts.items(), key=lambda x: x[1], reverse=True)` (line 151).
CPython's sort is stable and `reverse=True` preserves the original order of
equal keys; the theorems below establish exactly the permutation, sortedness
and stability properties that characterise that function. -/
def sort_by_count_desc : List (String × Nat) → List (String × Nat)
  | [] => []
  | x :: xs => insert_by_count_desc x (sort_by_count_desc xs)

/-- `EngagementTracker._get_top_actions` (lines 144-152). -/
def get_top_actions (actions : List String) (top_n : Nat) :
    List (String × Nat) :=
  (sort_by_count_desc (action_counts actions)).take top_n

/-- `_get_top_actions` with its default argument `top_n=5`. -/
def get_top_actions_default (actions : List String) : List (String × Nat) :=
  get_top_actions actions 5

/-- `EngagementTracker._analyze_global_trends` (lines 154-162): histogram of
per-session trend labels over all sessions. -/
def analyze_global_trends (st : TrackerState) : List (String × Nat) :=
  st.session_data.foldl
    (fun trends p => update_count trends (get_engagement_trend st p.1)) []

/-- Module-level names bound by `engagement_tracker.py` lines 1-3
(`import numpy as np`, `from datetime import datetime`, `import json`) plus
the class itself.  Note `timedelta` is NOT among them. -/
def engagement_tracker_module_names : List String :=
  ["np", "datetime", "json", "EngagementTracker"]

/-- `EngagementTracker.clear_old_data` (lines 164-183).  Its first statement
evaluates `timedelta(hours=hours_to_keep)`, but `timedelta` is never imported
by the module, so in the source every call raises
`NameError: name 'timedelta' is not defined` before any state is touched.
The filtering the function would perform if the name resolved is kept in the
(unreachable) success branch: entries at or before the cutoff are dropped and
sessions left empty are deleted.  `now` is `datetime.now()` in seconds and
`hours_to_keep` is converted to seconds. -/
def clear_old_data (st : TrackerState) (now : ℚ) (hours_to_keep : ℚ) :
    Except String TrackerState :=
  if "timedelta" ∈ engagement_tracker_module_names then
    let cutoff := now - hours_to_keep * 3600
    .ok ⟨st.tracking_history.filter (fun e => decide (cutoff < e.timestamp)),
         ((st.session_data.map
             (fun p => (p.1, p.2.filter (fun e => decide (cutoff < e.timestamp))))).filter
           (fun p => !p.2.isEmpty))⟩
  else .error "NameError: name 'timedelta' is not defined"

/-! ## `src/app.py` -/

/-- One element of a session's `viewing_pattern` list (app.py lines 94-99). -/
structure PatternEntry where
  timestamp : ℚ
  engagement : ℚ
  user_action : String
  video_time : ℚ
deriving DecidableEq

/-- One value of the `active_sessions` dict (app.py lines 37-43).
`content_modifications` holds opaque records; only its length is read. -/
structure AppSession where
  start_time : ℚ
  engagement_score : ℚ
  viewing_pattern : List PatternEntry
  content_modifications : List String
  total_optimizations : Nat
deriving DecidableEq

/-- The `.seconds` attribute of a Python `timedelta` of `d` seconds: the
seconds component after normalisation into days/seconds/microseconds. -/
def timedelta_seconds (d : ℚ) : ℤ := Int.floor d % 86400

/-- The stats payload of `get_session_stats` (app.py lines 148-155). -/
structure SessionStats where
  session_id : String
  duration_seconds : ℤ
  engagement_score : ℚ
  total_interactions : Nat
  optimizations_applied : Nat
  viewing_pattern : List PatternEntry
deriving DecidableEq

/-- `get_session_stats` (app.py lines 139-157): unknown session ids get the
error dict `{'error': 'Session not found'}` served with HTTP 404 (line 143);
otherwise the stats payload is built, with `viewing_pattern` truncated to the
last 10 interactions by the slice `[-10:]` (line 154). -/
def get_session_stats (active_sessions : List (String × AppSession))
    (session_id : String) (now : ℚ) : Except String SessionStats :=
  match dict_get active_sessions session_id with
  | none => .error "Session not found"
  | some s =>
    .ok ⟨session_id, timedelta_seconds (now - s.start_time),
         s.engagement_score, s.viewing_pattern.length,
         s.content_modifications.length,
         s.viewing_pattern.drop (s.viewing_pattern.length - 10)⟩

/-! ## `src/models/neural_director.py` -/

/-- One optimization action (neural_director.py lines 143-190). -/
structure Optimization where
  type : String
  action : String
  description : String
  confidence : ℚ
  priority : String
deriving DecidableEq

/-- One element of the process-wide `optimization_history` log
(neural_director.py lines 98-104). -/
structure OptimizationEvent where
  timestamp : ℚ
  content_id : String
  before_engagement : ℚ
  predicted_improvement : ℚ
  optimizations_applied : Nat
deriving DecidableEq

/-- The state of a `NeuralDirector` object relevant to `optimize_content`:
the `is_trained` flag (line 13, set on line 43) and the optimization log
(line 16).  The two sklearn models themselves are external collaborators
whose outputs are passed as parameters. -/
structure DirectorState where
  is_trained : Bool
  optimization_history : List OptimizationEvent
deriving DecidableEq

/-- The result dict of `optimize_content` (neural_director.py lines 106-114). -/
structure OptimizationResult where
  content_id : String
  current_engagement : ℚ
  predicted_engagement : ℚ
  needs_optimization : Bool
  optimizations : List Optimization
  confidence_score : ℚ
  timestamp : ℚ
deriving DecidableEq

/-- `NeuralDirector._generate_optimizations` (lines 137-193): the banded
action table, bands evaluated top to bottom.  `viewing_pattern` is a formal
parameter of the source function but is never read. -/
def generate_optimizations (engagement : ℚ)
    (viewing_pattern : List PatternEntry) : List Optimization :=
  if engagement < 0.3 then
    [⟨"emergency_intervention", "suggest_different_content",
      "Recommend completely different content", 0.95, "high"⟩,
     ⟨"pacing_adjustment", "increase_pace",
      "Increase scene pacing by 25%", 0.85, "high"⟩]
  else if engagement < 0.6 then
    [⟨"scene_reorder", "prioritize_exciting_scenes",
      "Present more engaging scenes first", 0.72, "medium"⟩,
     ⟨"content_highlight", "jump_to_action",
      "Skip to next high-action sequence", 0.78, "medium"⟩,
     ⟨"audio_enhancement", "boost_dramatic_audio",
      "Boost dramatic music by 15%", 0.65, "low"⟩]
  else if engagement > 0.8 then
    [⟨"engagement_extension", "show_bonus_content",
      "Offer behind-the-scenes content", 0.90, "low"⟩]
  else []

/-- `NeuralDirector.optimize_content` (lines 79-114).  When `is_trained` is
false the source returns the error dict `{'error': 'Model not trained'}`
(lines 81-82) — there is no fallback path.  Otherwise the feature vector of
`_extract_features` is fed to the two trained sklearn models; their outputs
are the parameters `needs_opt` (`content_optimizer.predict`, line 89) and
`predicted_engagement` (`engagement_model.predict`, line 90).  The full
optimization path (lines 94-104) fires when `needs_opt or
current_engagement < 0.6`, generating the banded action list and appending
one `OptimizationEvent` to the log. -/
def optimize_content (st : DirectorState) (content_id : String)
    (current_engagement : ℚ) (viewing_pattern : List PatternEntry)
    (needs_opt : Bool) (predicted_engagement : ℚ) (now : ℚ) :
    Except String (OptimizationResult × DirectorState) :=
  if st.is_trained = false then .error "Model not trained"
  else
    let trigger := needs_opt || decide (current_engagement < 0.6)
    let optimizations :=
      if trigger then generate_optimizations current_engagement viewing_pattern
      else []
    let new_history :=
      if trigger then
        st.optimization_history ++
          [⟨now, content_id, current_engagement,
            predicted_engagement - current_engagement, optimizations.length⟩]
      else st.optimization_history
    .ok (⟨content_id, current_engagement, predicted_engagement, needs_opt,
          optimizations, max 0 (min 1 predicted_engagement), now⟩,
         ⟨st.is_trained, new_history⟩)

/-- The `optimizations` list of an `optimize_content` result (empty on the
error path, which carries no action list). -/
def opt_optimizations (r : Except String (OptimizationResult × DirectorState)) :
    List Optimization :=
  match r with
  | .ok p => p.1.optimizations
  | .error _ => []

/-- The optimization log after an `optimize_content` call (empty on the error
path, which leaves no state). -/
def opt_history (r : Except String (OptimizationResult × DirectorState)) :
    List OptimizationEvent :=
  match r with
  | .ok p => p.2.optimization_history
  | .error _ => []

/-! ## Reachable tracker states

The only method of `EngagementTracker` that mutates state and can run to
completion is `calculate_engagement` (`clear_old_data` raises `NameError` on
its first statement, before touching any state). -/

/-- States an `EngagementTracker` object can actually be in: freshly
constructed, or the result of one more completed `calculate_engagement` call. -/
inductive TrackerReachable : TrackerState → Prop
  | init : TrackerReachable initial_tracker
  | step (st : TrackerState) (data : EngagementData) (noise now : ℚ) :
      TrackerReachable st →
      TrackerReachable (calculate_engagement st data noise now).2

/-! ## Helper lemmas about the dict model -/

theorem dict_get_append_single {α : Type} (m : List (String × α)) (k j : String)
    (v : α) :
    dict_get (m ++ [(k, v)]) j =
      match dict_get m j with
      | some w => some w
      | none => if j = k then some v else none := by
  induction m with
  | nil =>
    simp only [List.nil_append, dict_get]
    by_cases h : k = j
    · simp [h]
    · rw [if_neg h, if_neg (fun hx => h hx.symm)]
  | cons p rest ih =>
    by_cases h : p.1 = j <;> simp [dict_get, h, ih]

theorem dict_get_map_update {α : Type} (m : List (String × α)) (k j : String)
    (f : α → α) :
    dict_get (m.map (fun p => if p.1 = k then (p.1, f p.2) else p)) j =
      if j = k then (dict_get m k).map f else dict_get m j := by
  induction m with
  | nil => simp [dict_get]
  | cons p rest ih =>
    by_cases hpk : p.1 = k
    · by_cases hpj : p.1 = j
      · simp [dict_get, hpk, hpj, hpj ▸ hpk]
      · have hjk : ¬ j = k := by
          intro h; exact hpj (h ▸ hpk)
        have hkj : ¬ k = j := fun hx => hjk hx.symm
        simp [dict_get, hpk, hpj, hjk, hkj, ih]
    · by_cases hpj : p.1 = j
      · have hjk : ¬ j = k := by
          intro h; exact hpk (h ▸ hpj)
        simp [dict_get, hpk, hpj, hjk]
      · simp [dict_get, hpk, hpj, ih]

theorem dict_get_upsert {α : Type} (m : List (String × α)) (k j : String)
    (f : α → α) (init : α) :
    dict_get (dict_upsert m k f init) j =
      if j = k then some ((dict_get m k).elim init f) else dict_get m j := by
  unfold dict_upsert
  cases h : dict_get m k with
  | none =>
    rw [dict_get_append_single]
    cases hj : dict_get m j with
    | none =>
      by_cases hjk : j = k <;> simp [hjk, h]
    | some w =>
      by_cases hjk : j = k
      · rw [hjk] at hj; rw [hj] at h; exact absurd h (by simp)
      · simp [hjk, hj]
  | some v => rw [dict_get_map_update]; by_cases hjk : j = k <;> simp [hjk, h]

theorem dict_get_eq_none_iff {α : Type} (m : List (String × α)) (k : String) :
    dict_get m k = none ↔ k ∉ m.map Prod.fst := by
  induction m with
  | nil => simp [dict_get]
  | cons p rest ih =>
    simp only [dict_get, List.map_cons, List.mem_cons]
    by_cases h : p.1 = k
    · simp [h]
    · simp only [if_neg h, ih]
      constructor
      · intro hk hor
        cases hor with
        | inl he => exact h he.symm
        | inr hm => exact hk hm
      · intro hall hm
        exact hall (Or.inr hm)

theorem map_fst_map_update {α : Type} (m : List (String × α)) (k : String)
    (f : α → α) :
    (m.map (fun p => if p.1 = k then (p.1, f p.2) else p)).map Prod.fst =
      m.map Prod.fst := by
  rw [List.map_map]
  exact List.map_congr_left (fun p _ => by by_cases h : p.1 = k <;> simp [h])

theorem map_update_id {α : Type} (m : List (String × α)) (k : String)
    (f : α → α) (h : k ∉ m.map Prod.fst) :
    m.map (fun p => if p.1 = k then (p.1, f p.2) else p) = m := by
  induction m with
  | nil => rfl
  | cons p rest ih =>
    simp only [List.map_cons, List.mem_cons, not_or] at h ⊢
    have hp : ¬ p.1 = k := fun hx => (by simp [hx] at h)
    simp only [List.map_cons] at *
    rw [if_neg hp, ih (by intro hx; exact h.2 hx)]

theorem map_fst_upsert {α : Type} (m : List (String × α)) (k : String)
    (f : α → α) (init : α) :
    (dict_upsert m k f init).map Prod.fst =
      match dict_get m k with
      | none => m.map Prod.fst ++ [k]
      | some _ => m.map Prod.fst := by
  unfold dict_upsert
  cases h : dict_get m k with
  | none => simp
  | some v => exact map_fst_map_update m k f

theorem nodup_keys_upsert {α : Type} (m : List (String × α)) (k : String)
    (f : α → α) (init : α) (h : (m.map Prod.fst).Nodup) :
    ((dict_upsert m k f init).map Prod.fst).Nodup := by
  rw [map_fst_upsert]
  cases hk : dict_get m k with
  | none =>
    have hnk : k ∉ m.map Prod.fst := (dict_get_eq_none_iff m k).mp hk
    simp only [List.nodup_append, List.Disjoint]
    refine ⟨h, List.nodup_singleton k, ?_⟩
    intro a ha hak
    simp only [List.mem_singleton] at hak
    exact hnk (hak ▸ ha)
  | some v => simpa using h

theorem sum_map_upsert_none {α : Type} (g : α → ℕ) (m : List (String × α))
    (k : String) (f : α → α) (init : α) (h : dict_get m k = none) :
    ((dict_upsert m k f init).map (fun p => g p.2)).sum =
      (m.map (fun p => g p.2)).sum + g init := by
  simp [dict_upsert, h]

theorem sum_map_update_of_get {α : Type} (g : α → ℕ) (m : List (String × α))
    (k : String) (f : α → α) (v : α)
    (hnd : (m.map Prod.fst).Nodup) (h : dict_get m k = some v) :
    ((m.map (fun p => if p.1 = k then (p.1, f p.2) else p)).map
        (fun p => g p.2)).sum + g v =
      (m.map (fun p => g p.2)).sum + g (f v) := by
  induction m with
  | nil => simp [dict_get] at h
  | cons p rest ih =>
    simp only [List.map_cons, List.nodup_cons] at hnd
    by_cases hpk : p.1 = k
    · rw [dict_get, if_pos hpk] at h
      injection h with hv
      have hrest : k ∉ rest.map Prod.fst := hpk ▸ hnd.1
      simp only [List.map_cons, if_pos hpk, map_update_id rest k f hrest,
        List.sum_cons]
      rw [hv]
      omega
    · rw [dict_get, if_neg hpk] at h
      simp only [List.map_cons, if_neg hpk, List.sum_cons]
      have := ih hnd.2 h
      omega

theorem sum_map_upsert_some {α : Type} (g : α → ℕ) (m : List (String × α))
    (k : String) (f : α → α) (init v : α)
    (hnd : (m.map Prod.fst).Nodup) (h : dict_get m k = some v) :
    ((dict_upsert m k f init).map (fun p => g p.2)).sum + g v =
      (m.map (fun p => g p.2)).sum + g (f v) := by
  unfold dict_upsert
  rw [h]
  exact sum_map_update_of_get g m k f v hnd h

/-- The invariant linking the global `tracking_history` list to the
per-session ledgers in every reachable `EngagementTracker` state: session
keys are distinct, the history length is the total ledger size, and each
session's ledger is exactly the history filtered to that session id (hence in
arrival order). -/
def tracker_invariant (st : TrackerState) : Prop :=
  (st.session_data.map Prod.fst).Nodup ∧
  st.tracking_history.length =
    (st.session_data.map (fun p => p.2.length)).sum ∧
  ∀ sid : String,
    st.tracking_history.filter (fun e => decide (e.session_id = sid)) =
      (dict_get st.session_data sid).getD []

theorem tracker_invariant_reachable (st : TrackerState)
    (h : TrackerReachable st) : tracker_invariant st := by
  induction h with
  | init =>
    refine ⟨by simp [initial_tracker], by simp [initial_tracker], ?_⟩
    intro sid
    simp [initial_tracker, dict_get]
  | step st data noise now hst ih =>
    obtain ⟨hnd, hlen, hfil⟩ := ih
    simp only [calculate_engagement]
    set sid := data.session_id.getD "unknown" with hsid
    set entry : TrackingEntry :=
      ⟨now, sid, data.action.getD "viewing",
       max 0 (min 1 (action_adjusted_score (data.action.getD "viewing") + noise)),
       data.video_time.getD 0⟩ with hentry
    unfold tracker_invariant
    dsimp only
    refine ⟨nodup_keys_upsert _ _ _ _ hnd, ?_, ?_⟩
    · cases hget : dict_get st.session_data sid with
      | none =>
        rw [sum_map_upsert_none (fun l => l.length) _ _ _ _ hget]
        simp [hlen]
      | some v =>
        have hs := sum_map_upsert_some (fun l => l.length) st.session_data sid
          (fun l => l ++ [entry]) [entry] v hnd hget
        simp only [List.length_append, List.length_cons, List.length_nil] at hs ⊢
        omega
    · intro sid2
      rw [List.filter_append]
      rw [dict_get_upsert]
      by_cases hss : sid2 = sid
      · rw [if_pos hss, hss]
        cases hget : dict_get st.session_data sid with
        | none =>
          have hbase := hfil sid
          rw [hget] at hbase
          simp only [Option.getD_none] at hbase
          simp [hbase, hentry]
        | some v =>
          have hbase := hfil sid
          rw [hget] at hbase
          simp only [Option.getD_some] at hbase
          simp [hbase, hentry]
      · rw [if_neg hss]
        have hbase := hfil sid2
        have hne : ¬ (entry.session_id = sid2) := by
          simp only [hentry]
          exact fun hx => hss (hx ▸ rfl)
        simp [hbase, hne]

/-! ## Claim theorems -/

/-- C9: after every `calculate_engagement` call the scored entry is appended
to both the global `tracking_history` and the session's ledger, so in every
reachable tracker state the global history length equals the sum of the
per-session ledger lengths, and each session's ledger is the history filtered
to that session id — in particular its entries appear in arrival order. -/
theorem c9_history_ledger_invariant (st : TrackerState)
    (h : TrackerReachable st) :
    st.tracking_history.length =
      (st.session_data.map (fun p => p.2.length)).sum ∧
    ∀ sid entries, dict_get st.session_data sid = some entries →
      entries =
        st.tracking_history.filter (fun e => decide (e.session_id = sid)) := by
  obtain ⟨hnd, hlen, hfil⟩ := tracker_invariant_reachable st h
  refine ⟨hlen, ?_⟩
  intro sid entries hget
  have := hfil sid
  rw [hget] at this
  simpa using this.symm

/-- Witness for C9 at a concrete reachable state: the tracker after one
`play` event recorded for session `s1`. -/
theorem c9_history_ledger_invariant_witness :
    ((calculate_engagement initial_tracker
        ⟨some "play", some 10, some "s1"⟩ 0 100).2).tracking_history.length =
      (((calculate_engagement initial_tracker
          ⟨some "play", some 10, some "s1"⟩ 0 100).2).session_data.map
        (fun p => p.2.length)).sum :=
  (c9_history_ledger_invariant _
    (TrackerReachable.step initial_tracker ⟨some "play", some 10, some "s1"⟩
      0 100 TrackerReachable.init)).1

/-- C1: for every interaction event and every noise sample,
`calculate_engagement` returns the per-action table value for the default
baseline 0.7 plus the noise term, clamped to `[0, 1]`; the result is always
in `[0, 1]`; an unknown/other action leaves the baseline unchanged and the
function never fails (it is total — `.get` defaults absorb missing fields). -/
theorem c1_score_table_and_clamp (st : TrackerState) (data : EngagementData)
    (noise now : ℚ) :
    (calculate_engagement st data noise now).1 =
      max 0 (min 1 (action_adjusted_score (data.action.getD "viewing") + noise))
    ∧ 0 ≤ (calculate_engagement st data noise now).1
    ∧ (calculate_engagement st data noise now).1 ≤ 1
    ∧ (action_adjusted_score "pause" = max 0.3 (0.7 - 0.2)
       ∧ action_adjusted_score "rewind" = min 1.0 (0.7 + 0.1)
       ∧ action_adjusted_score "skip" = max 0.1 (0.7 - 0.4)
       ∧ action_adjusted_score "fast_forward" = max 0.2 (0.7 - 0.3)
       ∧ action_adjusted_score "play" = min 1.0 (0.7 + 0.1)
       ∧ action_adjusted_score "volume_up" = min 1.0 (0.7 + 0.05)
       ∧ action_adjusted_score "fullscreen" = min 1.0 (0.7 + 0.15))
    ∧ (∀ a : String,
        a ∉ (["pause", "rewind", "skip", "fast_forward", "play", "volume_up",
              "fullscreen"] : List String) →
        action_adjusted_score a = 0.7) := by
  refine ⟨rfl, le_max_left 0 _, max_le (by norm_num) (min_le_left 1 _), ?_, ?_⟩
  · refine ⟨?_, ?_, ?_, ?_, ?_, ?_, ?_⟩ <;> simp [action_adjusted_score]
  · intro a ha
    simp only [List.mem_cons, List.mem_singleton, not_or] at ha
    obtain ⟨h1, h2, h3, h4, h5, h6, h7, _⟩ := ha
    simp [action_adjusted_score, h1, h2, h3, h4, h5, h6, h7]

/-- Witness for C1: the unknown action `"viewing"` (the default) keeps the
baseline 0.7. -/
theorem c1_score_table_and_clamp_witness :
    action_adjusted_score "viewing" = 0.7 :=
  (c1_score_table_and_clamp initial_tracker ⟨none, none, none⟩ 0 0).2.2.2.2
    "viewing" (by decide)

/-- The Python slice `scores[-3:]` ("the last 3 scores") agrees with taking 3
from the reversed list. -/
theorem last_three_eq (l : List ℚ) :
    (l.reverse.take 3).reverse = l.drop (l.length - 3) := by
  rw [List.take_reverse, List.reverse_reverse]

/-- The Python slice `scores[:-3]` ("all scores before the last 3") agrees
with dropping 3 from the reversed list. -/
theorem before_last_three_eq (l : List ℚ) :
    (l.reverse.drop 3).reverse = l.take (l.length - 3) := by
  rw [List.drop_reverse, List.reverse_reverse]

/-- The Python slice `scores[-6:-3]` ("the 3 scores preceding the last 3")
agrees with dropping then taking 3 from the reversed list, when at least 6
scores exist. -/
theorem mid_three_eq (l : List ℚ) (h : 6 ≤ l.length) :
    ((l.reverse.drop 3).take 3).reverse = (l.drop (l.length - 6)).take 3 := by
  rw [List.drop_reverse, List.take_reverse, List.reverse_reverse,
    List.length_take, List.drop_take]
  have hm : (l.length - 3) ⊓ l.length = l.length - 3 :=
    min_eq_left (Nat.sub_le _ _)
  rw [hm]
  congr 2
  omega

theorem isEmpty_false_of_length_pos {α : Type} (l : List α)
    (h : 0 < l.length) : l.isEmpty = false := by
  cases l with
  | nil => simp at h
  | cons a as => rfl

/-- C2: `classify_trend` returns `"stable"` for fewer than 3 scores;
otherwise it compares the mean of the last 3 scores with the mean of the 3
scores preceding those (or, with fewer than 6 total, the mean of all scores
before the last 3) and returns `"increasing"` / `"decreasing"` / `"stable"`
by the ±0.1 thresholds; the two spec examples classify as claimed.  (The
length-exactly-3 case is excluded from the second conjunct: there the claim's
`earlierAvg` is the mean of an empty list, which is undefined — `np.mean([])`
is NaN in the source and the function returns `"stable"`.) -/
theorem c2_classify_trend :
    (∀ scores : List ℚ, scores.length < 3 → classify_trend scores = "stable")
  ∧ (∀ scores : List ℚ, 4 ≤ scores.length →
      classify_trend scores =
        (if np_mean ((scores.reverse.take 3).reverse) -
              (if 6 ≤ scores.length then
                np_mean (((scores.reverse.drop 3).take 3).reverse)
              else np_mean ((scores.reverse.drop 3).reverse)) > 0.1 then
          "increasing"
        else if np_mean ((scores.reverse.take 3).reverse) -
              (if 6 ≤ scores.length then
                np_mean (((scores.reverse.drop 3).take 3).reverse)
              else np_mean ((scores.reverse.drop 3).reverse)) < -0.1 then
          "decreasing"
        else "stable"))
  ∧ classify_trend [0.9, 0.9, 0.9, 0.2, 0.2, 0.2] = "decreasing"
  ∧ classify_trend [0.2, 0.2, 0.2, 0.9, 0.9, 0.9] = "increasing" := by
  refine ⟨?_, ?_, ?_, ?_⟩
  · intro scores h
    simp [classify_trend, h]
  · intro scores h
    have h3 : ¬ scores.length < 3 := by omega
    rw [last_three_eq]
    by_cases h6 : 6 ≤ scores.length
    · rw [if_pos h6, mid_three_eq scores h6]
      have hne : ((scores.drop (scores.length - 6)).take 3).isEmpty = false := by
        apply isEmpty_false_of_length_pos
        rw [List.length_take, List.length_drop]
        omega
      simp only [classify_trend, if_neg h3, if_pos h6, hne, Bool.false_eq_true,
        if_false]
    · rw [if_neg h6, before_last_three_eq]
      have hne : (scores.take (scores.length - 3)).isEmpty = false := by
        apply isEmpty_false_of_length_pos
        rw [List.length_take]
        omega
      simp only [classify_trend, if_neg h3, if_neg h6, hne, Bool.false_eq_true,
        if_false]
  · simp only [classify_trend, np_mean]
    norm_num
  · simp only [classify_trend, np_mean]
    norm_num

/-- Witness for C2: the first spec example, a 6-score sequence dropping from
0.9 to 0.2, instantiating both hypothesised conjuncts. -/
theorem c2_classify_trend_witness :
    classify_trend ([0.9] : List ℚ) = "stable" ∧
    classify_trend [0.9, 0.9, 0.9, 0.2, 0.2, 0.2] = "decreasing" :=
  ⟨c2_classify_trend.1 [0.9] (by norm_num), c2_classify_trend.2.2.1⟩

/-- C3 counterexample: with a trained director whose predictor flag is false,
`optimize_content` at `current_engagement = 0.85` returns an EMPTY action
list — not the single `engagement_extension` action the claim promises for
score 0.85 — because 0.85 does not satisfy the trigger condition
`needs_opt or current_engagement < 0.6` (neural_director.py line 94). -/
theorem c3_counterexample :
    opt_optimizations
        (optimize_content ⟨true, []⟩ "content-1" 0.85 [] false 0.7 0) ≠
      [⟨"engagement_extension", "show_bonus_content",
        "Offer behind-the-scenes content", 0.90, "low"⟩] := by
  have hempty : opt_optimizations
      (optimize_content ⟨true, []⟩ "content-1" 0.85 [] false 0.7 0) = [] := by
    simp only [optimize_content, opt_optimizations]
    norm_num
  rw [hempty]
  simp

/-- C3 (amended): for a trained director, `optimize_content` at score 0.25
returns exactly the two emergency actions with priorities high, high in that
order (0.25 < 0.6 triggers the path for every flag value); at 0.75 it returns
an empty list for every flag value; at 0.85 it returns the single
`engagement_extension` action when the predictor's needs-optimization flag is
true, and an empty list when the flag is false. -/
theorem c3_score_band_actions (st : DirectorState) (cid : String)
    (vp : List PatternEntry) (needs_opt : Bool) (pe now : ℚ)
    (h : st.is_trained = true) :
    opt_optimizations (optimize_content st cid 0.25 vp needs_opt pe now) =
      [⟨"emergency_intervention", "suggest_different_content",
        "Recommend completely different content", 0.95, "high"⟩,
       ⟨"pacing_adjustment", "increase_pace",
        "Increase scene pacing by 25%", 0.85, "high"⟩]
    ∧ opt_optimizations (optimize_content st cid 0.75 vp needs_opt pe now) = []
    ∧ opt_optimizations (optimize_content st cid 0.85 vp true pe now) =
      [⟨"engagement_extension", "show_bonus_content",
        "Offer behind-the-scenes content", 0.90, "low"⟩]
    ∧ opt_optimizations (optimize_content st cid 0.85 vp false pe now) = [] := by
  refine ⟨?_, ?_, ?_, ?_⟩ <;>
    · simp only [optimize_content, opt_optimizations, h, generate_optimizations]
      norm_num

/-- Witness for C3 (amended) at a concrete trained director. -/
theorem c3_score_band_actions_witness :
    opt_optimizations
        (optimize_content ⟨true, []⟩ "content-1" 0.75 [] false 0.7 0) = [] :=
  (c3_score_band_actions ⟨true, []⟩ "content-1" [] false 0.7 0 rfl).2.1

/-- C4: for a trained director, the full optimization path fires exactly when
`needs_opt or current_engagement < 0.6`; a firing invocation appends exactly
one `OptimizationEvent` whose predicted improvement is
`predicted_engagement - current_engagement` and whose action count is the
length of the emitted action list, while a non-firing invocation leaves the
process-wide optimization log unchanged. -/
theorem c4_trigger_and_log (st : DirectorState) (cid : String) (cur : ℚ)
    (vp : List PatternEntry) (needs_opt : Bool) (pe now : ℚ)
    (h : st.is_trained = true) :
    (opt_optimizations (optimize_content st cid cur vp needs_opt pe now) =
      if needs_opt || decide (cur < 0.6) then generate_optimizations cur vp
      else [])
    ∧ ((needs_opt || decide (cur < 0.6)) = true →
        opt_history (optimize_content st cid cur vp needs_opt pe now) =
          st.optimization_history ++
            [⟨now, cid, cur, pe - cur,
              (opt_optimizations
                (optimize_content st cid cur vp needs_opt pe now)).length⟩])
    ∧ ((needs_opt || decide (cur < 0.6)) = false →
        opt_history (optimize_content st cid cur vp needs_opt pe now) =
          st.optimization_history) := by
  cases htr : (needs_opt || decide (cur < 0.6)) with
  | false =>
    refine ⟨?_, by simp, ?_⟩ <;>
      simp [optimize_content, opt_optimizations, opt_history, h, htr]
  | true =>
    refine ⟨?_, ?_, by simp⟩ <;>
      simp [optimize_content, opt_optimizations, opt_history, h, htr]

/-- Witness for C4 at a concrete trained director and a firing invocation. -/
theorem c4_trigger_and_log_witness :
    opt_history (optimize_content ⟨true, []⟩ "content-1" 0.25 [] false 0.7 5) =
      [⟨5, "content-1", 0.25, 0.7 - 0.25,
        (opt_optimizations
          (optimize_content ⟨true, []⟩ "content-1" 0.25 [] false 0.7 5)).length⟩] :=
  (c4_trigger_and_log ⟨true, []⟩ "content-1" 0.25 [] false 0.7 5 rfl).2.1
    (by norm_num)

/-- C5 counterexample: with the predictor untrained, `optimize_content` at a
concrete input FAILS the request with the error result
`{'error': 'Model not trained'}` (neural_director.py lines 81-82) instead of
returning a successful score-band-only decision. -/
theorem c5_counterexample :
    optimize_content ⟨false, []⟩ "content-1" 0.25 [] false 0.5 0 =
      Except.error "Model not trained" := rfl

/-- C5 (amended): whenever the predictor is untrained (`is_trained` false,
the only predictor-unavailable state the source can be in), every
`optimize_content` request fails with the error result
`{'error': 'Model not trained'}`; there is no fallback to a score-band-only
decision and no predictor-unavailable marking. -/
theorem c5_untrained_errors (st : DirectorState) (cid : String) (cur : ℚ)
    (vp : List PatternEntry) (needs_opt : Bool) (pe now : ℚ)
    (h : st.is_trained = false) :
    optimize_content st cid cur vp needs_opt pe now =
      Except.error "Model not trained" := by
  simp [optimize_content, h]

/-- Witness for C5 (amended) at a concrete untrained director. -/
theorem c5_untrained_errors_witness :
    optimize_content ⟨false, [⟨0, "c", 0.5, 0.1, 2⟩]⟩ "content-2" 0.9 [] true
        0.4 7 = Except.error "Model not trained" :=
  c5_untrained_errors ⟨false, [⟨0, "c", 0.5, 0.1, 2⟩]⟩ "content-2" 0.9 [] true
    0.4 7 rfl

/-- C6 (code bug): every invocation of `clear_old_data`, on every tracker
state and every retention window, fails with
`NameError: name 'timedelta' is not defined` — `engagement_tracker.py` uses
`timedelta` on line 166 but only imports `datetime` from the `datetime`
module (line 2), so the retention sweep described by the claim never runs and
no entry is ever removed. -/
theorem c6_clear_old_data_name_error (st : TrackerState)
    (now hours_to_keep : ℚ) :
    clear_old_data st now hours_to_keep =
      Except.error "NameError: name 'timedelta' is not defined" := by
  simp [clear_old_data, engagement_tracker_module_names]

/-- C7: `get_session_analytics` on an unknown session id returns the explicit
`Session not found` error rather than zero-valued aggregates; `app.py`'s
`get_session_stats` on an unknown id returns the `Session not found` error
(HTTP 404); and on a known session its payload truncates the viewing pattern
to the last 10 interactions (never more than 10). -/
theorem c7_session_not_found_and_last10 :
    (∀ (st : TrackerState) (sid : String),
      dict_get st.session_data sid = none →
      get_session_analytics st sid = Except.error "Session not found")
  ∧ (∀ (active : List (String × AppSession)) (sid : String) (now : ℚ),
      dict_get active sid = none →
      get_session_stats active sid now = Except.error "Session not found")
  ∧ (∀ (active : List (String × AppSession)) (sid : String) (now : ℚ)
      (s : AppSession) (stats : SessionStats),
      dict_get active sid = some s →
      get_session_stats active sid now = Except.ok stats →
      stats.viewing_pattern =
        s.viewing_pattern.drop (s.viewing_pattern.length - 10) ∧
      stats.viewing_pattern.length ≤ 10) := by
  refine ⟨?_, ?_, ?_⟩
  · intro st sid h
    simp [get_session_analytics, h]
  · intro active sid now h
    simp [get_session_stats, h]
  · intro active sid now s stats hget hok
    simp only [get_session_stats, hget, Except.ok.injEq] at hok
    rw [← hok]
    refine ⟨rfl, ?_⟩
    simp only [List.length_drop]
    omega

/-- Witness for C7: a fresh tracker knows no session; an empty
`active_sessions` dict knows no session; a known one-interaction session
serves at most 10 recent interactions. -/
theorem c7_session_not_found_and_last10_witness :
    get_session_analytics initial_tracker "nope" =
      Except.error "Session not found"
    ∧ get_session_stats [] "nope" 0 = Except.error "Session not found"
    ∧ ((⟨"s1", 0, 0.8, 1, 0, [⟨0, 0.8, "play", 1⟩]⟩ :
          SessionStats).viewing_pattern =
        ([⟨0, 0.8, "play", 1⟩] : List PatternEntry).drop
          (([⟨0, 0.8, "play", 1⟩] : List PatternEntry).length - 10)
       ∧ (⟨"s1", 0, 0.8, 1, 0, [⟨0, 0.8, "play", 1⟩]⟩ :
          SessionStats).viewing_pattern.length ≤ 10) := by
  refine ⟨?_, ?_, ?_⟩
  · exact c7_session_not_found_and_last10.1 initial_tracker "nope" rfl
  · exact c7_session_not_found_and_last10.2.1 [] "nope" 0 rfl
  · exact c7_session_not_found_and_last10.2.2
      [("s1", ⟨0, 0.8, [⟨0, 0.8, "play", 1⟩], [], 0⟩)] "s1" 0
      ⟨0, 0.8, [⟨0, 0.8, "play", 1⟩], [], 0⟩
      ⟨"s1", 0, 0.8, 1, 0, [⟨0, 0.8, "play", 1⟩]⟩ rfl
      (by simp [get_session_stats, dict_get, timedelta_seconds])

theorem sum_update_count (m : List (String × Nat)) (k : String)
    (hnd : (m.map Prod.fst).Nodup) :
    ((update_count m k).map (fun p => p.2)).sum =
      (m.map (fun p => p.2)).sum + 1 := by
  cases hget : dict_get m k with
  | none =>
    have := sum_map_upsert_none (fun n => n) m k (fun n => n + 1) 1 hget
    simpa [update_count] using this
  | some v =>
    have h2 : ((dict_upsert m k (fun n => n + 1) 1).map
        (fun p => p.2)).sum + v = (m.map (fun p => p.2)).sum + (v + 1) :=
      sum_map_upsert_some (fun n => n) m k (fun n => n + 1) 1 v hnd hget
    simp only [update_count]
    omega

theorem nodup_keys_update_count (m : List (String × Nat)) (k : String)
    (hnd : (m.map Prod.fst).Nodup) :
    ((update_count m k).map Prod.fst).Nodup :=
  nodup_keys_upsert m k (fun n => n + 1) 1 hnd

theorem trend_histogram_fold_sum (st : TrackerState)
    (sessions : List (String × List TrackingEntry))
    (m : List (String × Nat)) (hnd : (m.map Prod.fst).Nodup) :
    (((sessions.foldl
        (fun t p => update_count t (get_engagement_trend st p.1)) m).map
          (fun p => p.2)).sum =
        (m.map (fun p => p.2)).sum + sessions.length) ∧
    (((sessions.foldl
        (fun t p => update_count t (get_engagement_trend st p.1)) m).map
          Prod.fst).Nodup) := by
  induction sessions generalizing m with
  | nil => simpa using hnd
  | cons p rest ih =>
    simp only [List.foldl_cons, List.length_cons]
    have hstep := sum_update_count m (get_engagement_trend st p.1) hnd
    have hnd2 := nodup_keys_update_count m (get_engagement_trend st p.1) hnd
    obtain ⟨hsum, hnodup⟩ := ih (update_count m (get_engagement_trend st p.1)) hnd2
    refine ⟨?_, hnodup⟩
    rw [hsum, hstep]
    omega

/-- C10: `get_engagement_trend` on a session id with no recorded data returns
`"stable"` rather than a not-found error (an empty ledger also yields
`"stable"`); its result is always one of the three trend labels, so the
global trend histogram `_analyze_global_trends` never fails — it always
produces a histogram whose counts sum to the number of sessions. -/
theorem c10_trend_total (st : TrackerState) (sid : String) :
    (dict_get st.session_data sid = none →
      get_engagement_trend st sid = "stable")
  ∧ (dict_get st.session_data sid = some [] →
      get_engagement_trend st sid = "stable")
  ∧ get_engagement_trend st sid ∈
      (["increasing", "decreasing", "stable"] : List String)
  ∧ ((analyze_global_trends st).map (fun p => p.2)).sum =
      st.session_data.length := by
  refine ⟨?_, ?_, ?_, ?_⟩
  · intro h
    simp [get_engagement_trend, h]
  · intro h
    simp [get_engagement_trend, h, classify_trend]
  · cases hget : dict_get st.session_data sid with
    | none => simp [get_engagement_trend, hget]
    | some entries =>
      simp only [get_engagement_trend, hget, classify_trend]
      split_ifs <;> simp
  · have := (trend_histogram_fold_sum st st.session_data []
      (by simp)).1
    simpa [analyze_global_trends] using this

/-- Witness for C10: a fresh tracker knows no session, yet the trend lookup
returns `"stable"`. -/
theorem c10_trend_total_witness :
    get_engagement_trend initial_tracker "ghost" = "stable" :=
  (c10_trend_total initial_tracker "ghost").1 rfl

theorem insert_by_count_desc_perm (x : String × Nat)
    (l : List (String × Nat)) : (insert_by_count_desc x l).Perm (x :: l) := by
  induction l with
  | nil => exact List.Perm.refl _
  | cons y ys ih =>
    simp only [insert_by_count_desc]
    split_ifs with h
    · exact List.Perm.refl _
    · exact (ih.cons y).trans (List.Perm.swap x y ys)

theorem sort_by_count_desc_perm (l : List (String × Nat)) :
    (sort_by_count_desc l).Perm l := by
  induction l with
  | nil => exact List.Perm.refl _
  | cons x xs ih =>
    exact (insert_by_count_desc_perm x (sort_by_count_desc xs)).trans (ih.cons x)

theorem pairwise_insert_by_count_desc (x : String × Nat)
    (l : List (String × Nat))
    (h : l.Pairwise (fun a b => b.2 ≤ a.2)) :
    (insert_by_count_desc x l).Pairwise (fun a b => b.2 ≤ a.2) := by
  induction l with
  | nil => simp [insert_by_count_desc]
  | cons y ys ih =>
    simp only [insert_by_count_desc]
    rw [List.pairwise_cons] at h
    split_ifs with hxy
    · refine List.Pairwise.cons ?_ (List.Pairwise.cons h.1 h.2)
      intro z hz
      rcases List.mem_cons.mp hz with hz | hz
      · rw [hz]; exact hxy
      · exact le_trans (h.1 z hz) hxy
    · refine List.Pairwise.cons ?_ (ih h.2)
      intro z hz
      have hz2 := (insert_by_count_desc_perm x ys).mem_iff.mp hz
      rcases List.mem_cons.mp hz2 with hz2 | hz2
      · rw [hz2]; exact le_of_lt (lt_of_not_ge hxy)
      · exact h.1 z hz2

theorem pairwise_sort_by_count_desc (l : List (String × Nat)) :
    (sort_by_count_desc l).Pairwise (fun a b => b.2 ≤ a.2) := by
  induction l with
  | nil => simp [sort_by_count_desc]
  | cons x xs ih => exact pairwise_insert_by_count_desc x _ ih

theorem filter_insert_by_count_desc (x : String × Nat)
    (l : List (String × Nat)) (c : Nat) :
    (insert_by_count_desc x l).filter (fun p => decide (p.2 = c)) =
      if x.2 = c then x :: l.filter (fun p => decide (p.2 = c))
      else l.filter (fun p => decide (p.2 = c)) := by
  induction l with
  | nil =>
    by_cases hxc : x.2 = c <;> simp [insert_by_count_desc, List.filter, hxc]
  | cons y ys ih =>
    simp only [insert_by_count_desc]
    by_cases hxy : x.2 ≥ y.2
    · rw [if_pos hxy]
      by_cases hxc : x.2 = c <;> simp [List.filter_cons, hxc]
    · rw [if_neg hxy]
      have hyx : x.2 < y.2 := lt_of_not_ge hxy
      rw [List.filter_cons, List.filter_cons, ih]
      by_cases hyc : y.2 = c
      · have hxc : ¬ x.2 = c := fun hx =>
          (ne_of_lt hyx) (hx.trans hyc.symm)
        simp [hyc, hxc]
      · simp [hyc]

theorem filter_sort_by_count_desc (l : List (String × Nat)) (c : Nat) :
    (sort_by_count_desc l).filter (fun p => decide (p.2 = c)) =
      l.filter (fun p => decide (p.2 = c)) := by
  induction l with
  | nil => rfl
  | cons x xs ih =>
    simp only [sort_by_count_desc]
    rw [filter_insert_by_count_desc]
    by_cases hxc : x.2 = c <;> simp [List.filter_cons, hxc, ih]

theorem dict_get_foldl_update_count (l : List String)
    (m : List (String × Nat)) (a : String) :
    dict_get (l.foldl update_count m) a =
      match dict_get m a with
      | some v => some (v + l.count a)
      | none => if a ∈ l then some (l.count a) else none := by
  induction l generalizing m with
  | nil =>
    simp only [List.foldl_nil, List.count_nil, List.not_mem_nil, if_false]
    cases h : dict_get m a <;> simp [h]
  | cons b rest ih =>
    simp only [List.foldl_cons]
    rw [ih (update_count m b)]
    have hup : dict_get (update_count m b) a =
        if a = b then some ((dict_get m b).elim 1 (fun n => n + 1))
        else dict_get m a := dict_get_upsert m b a (fun n => n + 1) 1
    by_cases hab : a = b
    · rw [hup, if_pos hab]
      subst hab
      cases hma : dict_get m a with
      | none =>
        simp only [Option.elim_none]
        simp [hma, List.count_cons, Nat.add_comm]
      | some v =>
        simp only [Option.elim_some]
        simp [hma, List.count_cons]
        omega
    · rw [hup, if_neg hab]
      have hba : ¬ b = a := fun h => hab h.symm
      cases hma : dict_get m a with
      | none => simp [hma, List.count_cons, hba, hab, List.mem_cons]
      | some v => simp [hma, List.count_cons, hba]

theorem map_fst_foldl_update_count (l : List String)
    (m : List (String × Nat)) :
    (l.foldl update_count m).map Prod.fst =
      l.foldl (fun ks a => if a ∈ ks then ks else ks ++ [a])
        (m.map Prod.fst) := by
  induction l generalizing m with
  | nil => rfl
  | cons b rest ih =>
    simp only [List.foldl_cons]
    rw [ih (update_count m b)]
    congr 1
    simp only [update_count]
    rw [map_fst_upsert]
    cases hget : dict_get m b with
    | none =>
      have hnm : b ∉ m.map Prod.fst := (dict_get_eq_none_iff m b).mp hget
      simp [hnm]
    | some v =>
      have hm : b ∈ m.map Prod.fst := by
        by_contra hc
        rw [(dict_get_eq_none_iff m b).mpr hc] at hget
        cases hget
      simp [hm]

/-- C8: `_get_top_actions` returns the action/frequency pairs of the counter
dict truncated to at most `n` entries (default `n = 5`), where the ranking is
the stable descending sort of the counter dict by frequency: it is a
permutation of the counts, sorted by frequency descending, and for every
frequency value the relative order of equally frequent actions is unchanged —
i.e. ties are broken by first-seen order, since the counter dict's keys are
in first-seen order and each key carries its exact occurrence count. -/
theorem c8_top_actions_ranking (actions : List String) (n : Nat) :
    get_top_actions actions n =
      (sort_by_count_desc (action_counts actions)).take n
    ∧ (get_top_actions actions n).length ≤ n
    ∧ (get_top_actions actions n).Pairwise (fun a b => b.2 ≤ a.2)
    ∧ (sort_by_count_desc (action_counts actions)).Perm (action_counts actions)
    ∧ (∀ c : Nat,
        (sort_by_count_desc (action_counts actions)).filter
            (fun p => decide (p.2 = c)) =
          (action_counts actions).filter (fun p => decide (p.2 = c)))
    ∧ (action_counts actions).map Prod.fst = first_seen actions
    ∧ (∀ (a : String) (v : Nat),
        dict_get (action_counts actions) a = some v → v = actions.count a)
    ∧ get_top_actions_default actions = get_top_actions actions 5 := by
  refine ⟨rfl, ?_, ?_, sort_by_count_desc_perm _,
    fun c => filter_sort_by_count_desc _ c, ?_, ?_, rfl⟩
  · rw [get_top_actions, List.length_take]
    exact min_le_left n _
  · exact List.Pairwise.sublist (List.take_sublist n _)
      (pairwise_sort_by_count_desc _)
  · have h := map_fst_foldl_update_count actions []
    simpa [action_counts, first_seen] using h
  · intro a v h
    rw [action_counts, dict_get_foldl_update_count actions [] a] at h
    simp only [dict_get] at h
    by_cases hm : a ∈ actions
    · rw [if_pos hm] at h
      exact (Option.some.injEq _ _ ▸ h).symm
    · rw [if_neg hm] at h
      cases h

/-- Witness for C8: with the actions `play, pause, play`, the counter dict
binds `play` to its exact frequency 2. -/
theorem c8_top_actions_ranking_witness :
    (2 : Nat) = (["play", "pause", "play"] : List String).count "play" :=
  (c8_top_actions_ranking ["play", "pause", "play"] 5).2.2.2.2.2.2.1 "play" 2
    (by decide)
